import Mathlib

/-!
Shallow embedding of `src/http_api.py`, a thin REST client for the bitFlyer
exchange.  Pure request construction is modelled directly; ambient inputs
(the wall clock read by `datetime.now()` and the bytes returned by the
market-listing endpoint) become explicit parameters, and the Python
exceptions become an explicit error type.  The HMAC-SHA-256 used by
`Context._create_header` is implemented concretely below, byte-for-byte
following FIPS 180-4 and RFC 2104, which is what Python's `hashlib.sha256`
and `hmac.HMAC` compute.
-/

namespace PyBitflyer

/-! ## Bytes and hexadecimal rendering -/

/-- A byte string is a list of naturals; every producer below keeps entries
below 256. -/
abbrev Bytes := List Nat

/-- UTF-8 encoding of a single Unicode code point. -/
def encodeCodePoint (c : Nat) : Bytes :=
  if c < 0x80 then [c]
  else if c < 0x800 then
    [0xC0 ||| (c >>> 6), 0x80 ||| (c &&& 0x3F)]
  else if c < 0x10000 then
    [0xE0 ||| (c >>> 12), 0x80 ||| ((c >>> 6) &&& 0x3F), 0x80 ||| (c &&& 0x3F)]
  else
    [0xF0 ||| (c >>> 18), 0x80 ||| ((c >>> 12) &&& 0x3F),
     0x80 ||| ((c >>> 6) &&& 0x3F), 0x80 ||| (c &&& 0x3F)]

/-- Python's `str.encode('utf8')`. -/
def strToBytes (s : String) : Bytes :=
  (s.data.map (fun c => encodeCodePoint c.toNat)).flatten

/-- Lowercase hexadecimal digit of the low nibble of `n`: code point 48
upwards for `0`-`9`, 97 upwards for `a`-`f`. -/
def hexChar (n : Nat) : Char :=
  let v := n &&& 15
  Char.ofNat (if v < 10 then 48 + v else 87 + v)

/-- Python's `hexdigest()`: each byte rendered as two lowercase hex digits. -/
def hexdigest (bs : Bytes) : String :=
  String.mk ((bs.map (fun b => [hexChar (b >>> 4), hexChar b])).flatten)

/-! ## SHA-256 (FIPS 180-4) over byte lists -/

/-- Truncation to a 32-bit word. -/
def w32 (n : Nat) : Nat := n % 4294967296

/-- 32-bit right rotation. -/
def rotr (x n : Nat) : Nat := w32 ((x >>> n) ||| (x <<< (32 - n)))

def shaCh (x y z : Nat) : Nat := (x &&& y) ^^^ ((x ^^^ 0xFFFFFFFF) &&& z)

def shaMaj (x y z : Nat) : Nat := (x &&& y) ^^^ (x &&& z) ^^^ (y &&& z)

def bigSigma0 (x : Nat) : Nat := (rotr x 2) ^^^ (rotr x 13) ^^^ (rotr x 22)

def bigSigma1 (x : Nat) : Nat := (rotr x 6) ^^^ (rotr x 11) ^^^ (rotr x 25)

def smallSigma0 (x : Nat) : Nat := (rotr x 7) ^^^ (rotr x 18) ^^^ (x >>> 3)

def smallSigma1 (x : Nat) : Nat := (rotr x 17) ^^^ (rotr x 19) ^^^ (x >>> 10)

/-- The 64 SHA-256 round constants of FIPS 180-4, in decimal. -/
def sha256K : List Nat :=
  [1116352408, 1899447441, 3049323471, 3921009573, 961987163, 1508970993,
   2453635748, 2870763221, 3624381080, 310598401, 607225278, 1426881987,
   1925078388, 2162078206, 2614888103, 3248222580, 3835390401, 4022224774,
   264347078, 604807628, 770255983, 1249150122, 1555081692, 1996064986,
   2554220882, 2821834349, 2952996808, 3210313671, 3336571891, 3584528711,
   113926993, 338241895, 666307205, 773529912, 1294757372, 1396182291,
   1695183700, 1986661051, 2177026350, 2456956037, 2730485921, 2820302411,
   3259730800, 3345764771, 3516065817, 3600352804, 4094571909, 275423344,
   430227734, 506948616, 659060556, 883997877, 958139571, 1322822218,
   1537002063, 1747873779, 1955562222, 2024104815, 2227730452, 2361852424,
   2428436474, 2756734187, 3204031479, 3329325298]

/-- The initial SHA-256 hash state of FIPS 180-4, in decimal. -/
def sha256H0 : List Nat :=
  [1779033703, 3144134277, 1013904242, 2773480762,
   1359893119, 2600822924, 528734635, 1541459225]

/-- Big-endian rendering of `val` on `n` bytes. -/
def beBytes (n val : Nat) : Bytes :=
  match n with
  | 0 => []
  | k + 1 => beBytes k (val >>> 8) ++ [val &&& 255]

/-- Group bytes into big-endian 32-bit words (input length a multiple of 4). -/
def bytesToWords : Bytes → List Nat
  | a :: b :: c :: d :: rest =>
      ((((a <<< 8) ||| b) <<< 8 ||| c) <<< 8 ||| d) :: bytesToWords rest
  | _ => []

/-- Extend the 16 block words to the 64-entry message schedule. -/
def sha256schedule (ws : List Nat) : List Nat :=
  (List.range 48).foldl
    (fun acc _ =>
      let n := acc.length
      acc ++ [w32 (smallSigma1 (acc.getD (n - 2) 0) + acc.getD (n - 7) 0 +
                   smallSigma0 (acc.getD (n - 15) 0) + acc.getD (n - 16) 0)])
    ws

/-- One compression round on the eight-word working state. -/
def sha256round (st : List Nat) (kw : Nat × Nat) : List Nat :=
  match st with
  | [a, b, c, d, e, f, g, h] =>
      let t1 := w32 (h + bigSigma1 e + shaCh e f g + kw.1 + kw.2)
      let t2 := w32 (bigSigma0 a + shaMaj a b c)
      [w32 (t1 + t2), a, b, c, w32 (d + t1), e, f, g]
  | other => other

/-- Compress one 64-byte block into the running hash state. -/
def sha256compress (st : Bytes) (block : Bytes) : List Nat :=
  let ws := sha256schedule (bytesToWords block)
  let st' := (sha256K.zip ws).foldl sha256round st
  List.zipWith (fun x y => w32 (x + y)) st st'

/-- Split a padded message into 64-byte blocks. -/
def chunks64 (l : Bytes) : List Bytes :=
  match l with
  | [] => []
  | x :: xs => (x :: xs).take 64 :: chunks64 (xs.drop 63)
termination_by l.length
decreasing_by simp [List.length_drop]; omega

/-- FIPS 180-4 padding: `0x80`, zeros to 56 mod 64, then the bit length on
eight big-endian bytes. -/
def sha256pad (msg : Bytes) : Bytes :=
  let L := msg.length
  let z := (119 - L % 64) % 64
  msg ++ (0x80 :: List.replicate z 0) ++ beBytes 8 (8 * L)

/-- SHA-256 of a byte string, as a 32-byte digest. -/
def sha256 (msg : Bytes) : Bytes :=
  (((chunks64 (sha256pad msg)).foldl sha256compress sha256H0).map (beBytes 4)).flatten

/-! ## HMAC (RFC 2104) with SHA-256, block size 64 -/

/-- `hmac.HMAC(key, msg, sha256).digest()`. -/
def hmacSha256 (key msg : Bytes) : Bytes :=
  let k0 := if 64 < key.length then sha256 key else key
  let k1 := k0 ++ List.replicate (64 - k0.length) 0
  let inner := sha256 ((k1.map (fun b => b ^^^ 0x36)) ++ msg)
  sha256 ((k1.map (fun b => b ^^^ 0x5c)) ++ inner)

/-! ## URL query encoding (`urllib.parse.urlencode`) -/

/-- Query values are the Python strings and ints that appear in this client's
query dicts. -/
inductive QVal where
  | s (v : String)
  | i (v : Int)
deriving DecidableEq, Repr

/-- Python's `str()` on a query value. -/
def QVal.pystr : QVal → String
  | .s v => v
  | .i v => toString v

/-- Characters `quote` never escapes: ASCII letters, digits, `_.-~`. -/
def isUrlSafeByte (b : Nat) : Bool :=
  (65 ≤ b && b ≤ 90) || (97 ≤ b && b ≤ 122) || (48 ≤ b && b ≤ 57) ||
  b == 95 || b == 46 || b == 45 || b == 126

/-- Uppercase hexadecimal digit of the low nibble, as used in `%XX` escapes:
code point 48 upwards for `0`-`9`, 65 upwards for `A`-`F`. -/
def hexCharUpper (n : Nat) : Char :=
  let v := n &&& 15
  Char.ofNat (if v < 10 then 48 + v else 55 + v)

/-- `urllib.parse.quote_plus`: spaces to `+`, unsafe bytes percent-escaped. -/
def quotePlus (s : String) : String :=
  String.mk (((strToBytes s).map (fun b =>
    if b == 32 then ['+']
    else if isUrlSafeByte b then [Char.ofNat b]
    else ['%', hexCharUpper (b >>> 4), hexCharUpper b])).flatten)

/-- `urllib.parse.urlencode` over an insertion-ordered dict. -/
def urlencode (q : List (String × QVal)) : String :=
  String.intercalate "&" (q.map (fun kv => quotePlus kv.1 ++ "=" ++ quotePlus kv.2.pystr))

/-! ## JSON serialization (`json.dumps`) for the flat dicts this client sends -/

/-- JSON values appearing in the request bodies this client builds. -/
inductive JVal where
  | s (v : String)
  | i (v : Int)
deriving DecidableEq, Repr

def JVal.dump : JVal → String
  | .s v => "\"" ++ v ++ "\""
  | .i v => toString v

/-- `json.dumps` on a flat dict, with the default `", "` and `": "` separators. -/
def jsonDumps (d : List (String × JVal)) : String :=
  "\x7b" ++
    String.intercalate ", " (d.map (fun kv => "\"" ++ kv.1 ++ "\": " ++ kv.2.dump)) ++
  "\x7d"

/-! ## Python dict semantics: insertion order, last write wins -/

/-- `d[key x] = x` on an insertion-ordered dict represented as a list. -/
def pyDictInsert (key : α → String) (d : List α) (x : α) : List α :=
  if d.any (fun y => key y == key x) then
    d.map (fun y => if key y == key x then x else y)
  else
    d ++ [x]

/-- The dict built by inserting the elements of `ps` in order (a dict
comprehension over a generator of key-value pairs). -/
def pyDictOf (key : α → String) (ps : List α) : List α :=
  ps.foldl (pyDictInsert key) []

/-- Dict lookup on the list representation. -/
def pyDictGet (key : α → String) (d : List α) (k : String) : Option α :=
  d.find? (fun y => key y == k)

/-! ## Data model -/

/-- The `Region` literal type: `'JP' | 'USA' | 'EU'`. -/
inductive Region where
  | JP
  | USA
  | EU
deriving DecidableEq, Repr

/-- Python's `self.region.lower()` on the region literal. -/
def Region.pylower : Region → String
  | .JP => "jp"
  | .USA => "usa"
  | .EU => "eu"

/-- A market descriptor: one entry of the parsed market listing. -/
structure Market where
  product_code : String
  «alias» : Option String
  market_type : Option String
deriving DecidableEq, Repr

/-- A single quote character, used by the `repr`-style error messages. -/
def sq : String := String.mk [Char.ofNat 39]

/-- Python `repr` of the plain identifier strings used in error messages. -/
def pyRepr (s : String) : String := sq ++ s ++ sq

/-- The Python exceptions this module can raise, made explicit. -/
inductive ApiError where
  /-- `TypeError` from the argument assertion in `Market.__new__`. -/
  | typeError (msg : String)
  /-- `KeyError(given, available)` from a failed registry lookup. -/
  | keyError (given : String) (available : String)
  /-- `AttributeError` from reading `cxt.market` on a context with no bound
  market: the `MissingMarket` failure of the spec. -/
  | missingMarket
  /-- `AttributeError` from reading `self.key` / `self.secret` with no
  credentials set. -/
  | missingCredentials
deriving DecidableEq, Repr

/-- The fully built request handed to `requests.request`: method, URL, body
string and optional headers. -/
structure HttpRequest where
  method : String
  url : String
  data : String
  headers : Option (List (String × String))
deriving DecidableEq, Repr

/-- The `Context` slots.  `market`, `key` and `secret` model slots that may
be unset (reading an unset slot raises `AttributeError`). -/
structure Context where
  region : Region
  market : Option Market
  key : Option String
  secret : Option Bytes
deriving DecidableEq, Repr

/-! ## The market registry (`Market.__new__`)

The class-level dict `Market._markets` is modelled as explicit state of type
`Option (List Market)`: `none` before the first call populates it, `some d`
afterwards, where `d` keeps the dict's insertion order.  The bytes the
market-listing endpoint would return are an ambient input; their parsed form
`fetched` is a parameter.  The outcome records the returned-or-raised value,
the registry state after the call, and how many fetches the call performed.
-/

/-- The dict `cls._markets` built from the parsed listing: insert each
descriptor keyed by `product_code`, in order, last write winning. -/
def buildMarkets (parsed : List Market) : List Market :=
  parsed.foldl (pyDictInsert (fun m => m.product_code)) []

/-- `', '.join(f"'{prod}'" for prod in cls._markets.keys())`. -/
def availProducts (d : List Market) : String :=
  String.intercalate ", " (d.map (fun m => pyRepr m.product_code))

/-- `', '.join(f"'{m.alias}'" for m in cls._markets.values() if m.alias is not None)`. -/
def availAliases (d : List Market) : String :=
  String.intercalate ", " ((d.filterMap (fun m => m.«alias»)).map pyRepr)

/-- The `TypeError` message of the argument assertion in `Market.__new__`. -/
def marketArgErr : ApiError :=
  .typeError "Market() takes 1 positional argument and just 1 keyword-only argument."

/-- The lookup half of `Market.__new__`, over an already populated dict `d`. -/
def Market.lookupResult (d : List Market) (product_code «alias» : Option String) :
    Except ApiError Market :=
  match product_code with
  | some pc =>
    match pyDictGet (fun m => m.product_code) d pc with
    | some m => .ok m
    | none => .error (.keyError ("given: product_code=" ++ pyRepr pc) (availProducts d))
  | none =>
    match «alias» with
    | some al =>
      match d.find? (fun m => m.«alias» == some al) with
      | some m => .ok m
      | none => .error (.keyError ("given: alias=" ++ pyRepr al) (availAliases d))
    | none => .error marketArgErr

/-- The result of one `Market(...)` call: value, registry state afterwards,
and the number of market-listing fetches the call performed. -/
structure RegistryOutcome where
  result : Except ApiError Market
  state : Option (List Market)
  fetches : Nat
deriving Repr

/-- `Market.__new__`: assert exactly one of `product_code`/`alias`, populate
the class-level dict on first use (one fetch), then look up. -/
def Market.__new__ (fetched : List Market) (st : Option (List Market))
    (product_code «alias» : Option String) : RegistryOutcome :=
  if product_code.isNone == «alias».isNone then
    ⟨.error marketArgErr, st, 0⟩
  else
    match st with
    | none =>
      let d := buildMarkets fetched
      ⟨Market.lookupResult d product_code «alias», some d, 1⟩
    | some d =>
      ⟨Market.lookupResult d product_code «alias», some d, 0⟩

/-! ## Query-building helpers -/

/-- `gen_market_data`: the pairs the generator yields, or the
`AttributeError` from `cxt.market` when no market is bound and neither
argument was given. -/
def gen_market_data (market : Option Market) (product_code «alias» : Option String) :
    Except ApiError (List (String × QVal)) :=
  match product_code with
  | some pc => .ok [("product_code", .s pc)]
  | none =>
    match «alias» with
    | some al => .ok [("alias", .s al)]
    | none =>
      match market with
      | some m => .ok [("product_code", .s m.product_code)]
      | none => .error .missingMarket

/-- `gen_pagenation`: one pair per supplied pagination argument, in order. -/
def gen_pagenation (count before after : Option Int) : List (String × QVal) :=
  (match count with | some c => [("count", QVal.i c)] | none => []) ++
  (match before with | some b => [("before", QVal.i b)] | none => []) ++
  (match after with | some a => [("after", QVal.i a)] | none => [])

/-! ## The request builder -/

/-- `Context.endpoint`: one base URL per region (all three coincide in the
source). -/
def Context.endpoint (cxt : Context) : String :=
  match cxt.region with
  | .JP => "https://api.bitflyer.com"
  | .USA => "https://api.bitflyer.com"
  | .EU => "https://api.bitflyer.com"

/-- `Context._get_regionwise_path`. -/
def Context._get_regionwise_path (cxt : Context) (base_path : String) : String :=
  match cxt.region with
  | .JP => base_path
  | _ => base_path ++ "/" ++ cxt.region.pylower

/-- `Context._create_header`.  `datetime.now().timestamp()` is an ambient
input, passed as the `timestamp` string; reading unset credential slots
raises `AttributeError`. -/
def Context._create_header (cxt : Context) (timestamp : String)
    (method path data : String) : Except ApiError (List (String × String)) :=
  match cxt.key, cxt.secret with
  | some key, some secret =>
    let msg := strToBytes (timestamp ++ method ++ path ++ data)
    let sign := hexdigest (hmacSha256 secret msg)
    .ok [("ACCESS-KEY", key),
         ("ACCESS-TIMESTAMP", timestamp),
         ("ACCESS-SIGN", sign),
         ("Content-Type", "application/json")]
  | _, _ => .error .missingCredentials

/-- `Context._send_request`, up to the call into `requests.request`: the
fully built request is returned instead of being sent.  The inverted
emptiness test on `query` is in the source. -/
def Context._send_request (cxt : Context) (timestamp : String)
    (method path : String) (query : List (String × QVal))
    (data : List (String × JVal)) (add_headers : Bool) :
    Except ApiError HttpRequest :=
  let url := cxt.endpoint ++ path
  let url := if query.length == 0 then url ++ "?" ++ urlencode query else url
  let data_str := if data.length == 0 then "" else jsonDumps data
  if add_headers then
    match cxt._create_header timestamp method path data_str with
    | .ok headers => .ok ⟨method, url, data_str, some headers⟩
    | .error e => .error e
  else
    .ok ⟨method, url, data_str, none⟩

/-- `Context.send_public_request`. -/
def Context.send_public_request (cxt : Context) (timestamp : String)
    (method path : String) (query : List (String × QVal))
    (data : List (String × JVal)) : Except ApiError HttpRequest :=
  cxt._send_request timestamp method path query data false

/-- `Context.send_private_request`. -/
def Context.send_private_request (cxt : Context) (timestamp : String)
    (method path : String) (query : List (String × QVal))
    (data : List (String × JVal)) : Except ApiError HttpRequest :=
  cxt._send_request timestamp method path query data true

/-! ## Endpoint wrappers used by the claims -/

/-- `Context.getmarket`. -/
def Context.getmarket (cxt : Context) (timestamp : String) :
    Except ApiError HttpRequest :=
  cxt.send_public_request timestamp "GET" (cxt._get_regionwise_path "/v1/markets") [] []

/-- The query dict `getboard` builds by comprehension over `gen_market_data`. -/
def Context.getboard_query (cxt : Context) (product_code «alias» : Option String) :
    Except ApiError (List (String × QVal)) :=
  (gen_market_data cxt.market product_code «alias»).map (pyDictOf (fun kv => kv.1))

/-- `Context.getboard`. -/
def Context.getboard (cxt : Context) (timestamp : String)
    (product_code «alias» : Option String) : Except ApiError HttpRequest := do
  let query ← cxt.getboard_query product_code «alias»
  cxt.send_public_request timestamp "GET" "/v1/getboard" query []

/-- The query dict `getexecutions` builds from the chained generators. -/
def Context.getexecutions_query (cxt : Context) (product_code «alias» : Option String)
    (count before after : Option Int) : Except ApiError (List (String × QVal)) :=
  (gen_market_data cxt.market product_code «alias»).map
    (fun md => pyDictOf (fun kv => kv.1) (md ++ gen_pagenation count before after))

/-- `Context.getexecutions`. -/
def Context.getexecutions (cxt : Context) (timestamp : String)
    (product_code «alias» : Option String) (count before after : Option Int) :
    Except ApiError HttpRequest := do
  let query ← cxt.getexecutions_query product_code «alias» count before after
  cxt.send_public_request timestamp "GET" "/v1/getexecutions" query []

/-- `Context.me_getbalance`. -/
def Context.me_getbalance (cxt : Context) (timestamp : String) :
    Except ApiError HttpRequest :=
  cxt.send_private_request timestamp "GET" "/v1/me/getbalance" [] []

/-- The query dict `me_getcoinins` builds. -/
def Context.me_getcoinins_query (count before after : Option Int) :
    List (String × QVal) :=
  pyDictOf (fun kv => kv.1) (gen_pagenation count before after)

/-- `Context.me_getcoinins`. -/
def Context.me_getcoinins (cxt : Context) (timestamp : String)
    (count before after : Option Int) : Except ApiError HttpRequest :=
  cxt.send_private_request timestamp "GET" "/v1/me/getcoinins"
    (Context.me_getcoinins_query count before after) []

/-- The query dict `me_getcoinouts` builds. -/
def Context.me_getcoinouts_query (count before after : Option Int) :
    List (String × QVal) :=
  pyDictOf (fun kv => kv.1) (gen_pagenation count before after)

/-- `Context.me_getcoinouts`. -/
def Context.me_getcoinouts (cxt : Context) (timestamp : String)
    (count before after : Option Int) : Except ApiError HttpRequest :=
  cxt.send_private_request timestamp "GET" "/v1/me/getcoinouts"
    (Context.me_getcoinouts_query count before after) []

/-- The query dict `me_getdeposits` builds. -/
def Context.me_getdeposits_query (count before after : Option Int) :
    List (String × QVal) :=
  pyDictOf (fun kv => kv.1) (gen_pagenation count before after)

/-- `Context.me_getdeposits`. -/
def Context.me_getdeposits (cxt : Context) (timestamp : String)
    (count before after : Option Int) : Except ApiError HttpRequest :=
  cxt.send_private_request timestamp "GET" "/v1/me/getdeposits"
    (Context.me_getdeposits_query count before after) []

/-- The query dict `me_getwithdrawals` builds: the pagination dict, then
`query['message_id'] = message_id` when supplied. -/
def Context.me_getwithdrawals_query (count before after : Option Int)
    (message_id : Option String) : List (String × QVal) :=
  let query := pyDictOf (fun kv => kv.1) (gen_pagenation count before after)
  match message_id with
  | some mid => pyDictInsert (fun kv => kv.1) query ("message_id", .s mid)
  | none => query

/-- `Context.me_getwithdrawals`. -/
def Context.me_getwithdrawals (cxt : Context) (timestamp : String)
    (count before after : Option Int) (message_id : Option String) :
    Except ApiError HttpRequest :=
  cxt.send_private_request timestamp "GET" "/v1/me/getwithdrawals"
    (Context.me_getwithdrawals_query count before after message_id) []

/-! ## Lookup helpers used only by theorem statements -/

/-- Value of a header by name. -/
def assocGet (k : String) (hs : List (String × String)) : Option String :=
  (hs.find? (fun kv => kv.1 == k)).map (fun kv => kv.2)

/-- Value of a query key. -/
def queryGet (q : List (String × QVal)) (k : String) : Option QVal :=
  (q.find? (fun kv => kv.1 == k)).map (fun kv => kv.2)

/-! ## Dict lemmas -/

theorem foldl_pyDictInsert (key : α → String) (ps : List α) :
    ∀ acc : List α, (∀ x ∈ ps, ∀ y ∈ acc, key y ≠ key x) → (ps.map key).Nodup →
      ps.foldl (pyDictInsert key) acc = acc ++ ps := by
  induction ps with
  | nil => intro acc _ _; simp
  | cons x t ih =>
    intro acc hdisj hnd
    rw [List.map_cons, List.nodup_cons] at hnd
    have hx : (acc.any fun y => key y == key x) = false := by
      rw [List.any_eq_false]
      intro y hy
      simpa using hdisj x (by simp) y hy
    have hins : pyDictInsert key acc x = acc ++ [x] := by
      simp [pyDictInsert, hx]
    have hdisj' : ∀ z ∈ t, ∀ y ∈ acc ++ [x], key y ≠ key z := by
      intro z hz y hy
      rcases List.mem_append.1 hy with h | h
      · exact hdisj z (List.mem_cons_of_mem _ hz) y h
      · rw [List.mem_singleton] at h
        subst h
        intro hEq
        exact hnd.1 (hEq ▸ List.mem_map_of_mem key hz)
    rw [List.foldl_cons, hins, ih (acc ++ [x]) hdisj' hnd.2]
    simp

/-- A dict built from pairwise-distinct keys is the input list itself. -/
theorem pyDictOf_eq_self (key : α → String) (ps : List α)
    (h : (ps.map key).Nodup) : pyDictOf key ps = ps := by
  have := foldl_pyDictInsert key ps [] (by intro x _ y hy; cases hy) h
  simpa [pyDictOf] using this

/-- `find?` by key finds a member when keys are pairwise distinct. -/
theorem find?_key_of_mem (key : α → String) (l : List α) (m : α)
    (hnd : (l.map key).Nodup) (hm : m ∈ l) :
    l.find? (fun x => key x == key m) = some m := by
  induction l with
  | nil => cases hm
  | cons h t ih =>
    rw [List.map_cons, List.nodup_cons] at hnd
    rcases List.mem_cons.1 hm with rfl | hmt
    · simp [List.find?]
    · have hne : (key h == key m) = false := by
        rw [beq_eq_false_iff_ne]
        intro hEq
        exact hnd.1 (hEq ▸ List.mem_map_of_mem key hmt)
      simp [List.find?, hne, ih hnd.2 hmt]

/-! ## Shared concrete inputs for witnesses -/

/-- A concrete parsed market listing. -/
def wMarkets : List Market :=
  [⟨"BTC_JPY", some "BTCJPY", some "Spot"⟩,
   ⟨"FX_BTC_JPY", some "FX", some "FX"⟩,
   ⟨"ETH_JPY", none, some "Spot"⟩]

/-- A concrete descriptor from `wMarkets`. -/
def wMarket : Market := ⟨"FX_BTC_JPY", some "FX", some "FX"⟩

/-! ## Claims -/

/-- C1: the claim says a non-empty query is serialized by `urlencode` and
appended to the path after `?`, and an empty query leaves the URL bare.
The source's emptiness test is inverted (`if len(query) == 0`), so the code
does the opposite on both sides: a non-empty query is dropped from the URL
entirely, and an empty query leaves a trailing bare `?`.  The third conjunct
shows the serializer itself behaves as claimed, isolating the inverted test
as the sole divergence. -/
theorem send_request_query_inverted :
    ((Context.send_public_request ⟨.JP, none, none, none⟩ "1700000000.0" "GET"
        "/v1/getboard" [("product_code", QVal.s "BTC_JPY")] []).map
          (fun r => r.url)
      = .ok "https://api.bitflyer.com/v1/getboard")
  ∧ ((Context.send_public_request ⟨.JP, none, none, none⟩ "1700000000.0" "GET"
        "/v1/markets" [] []).map (fun r => r.url)
      = .ok "https://api.bitflyer.com/v1/markets?")
  ∧ urlencode [("product_code", QVal.s "BTC_JPY")] = "product_code=BTC_JPY" :=
  ⟨rfl, rfl, rfl⟩

/-- C2: `_create_header` signs `timestamp ++ method ++ path ++ body` with
HMAC-SHA-256 keyed by the secret, rendered as lowercase hex, and emits
exactly the four claimed headers; and the private balance query reaches it
with body string `""`, so its signed message is
`timestamp ++ "GET" ++ "/v1/me/getbalance" ++ ""`. -/
theorem create_header_signs_concatenation (r : Region) (m : Option Market)
    (k ts method path data : String) (s : Bytes) :
    (Context.mk r m (some k) (some s))._create_header ts method path data =
      .ok [("ACCESS-KEY", k),
           ("ACCESS-TIMESTAMP", ts),
           ("ACCESS-SIGN", hexdigest (hmacSha256 s (strToBytes (ts ++ method ++ path ++ data)))),
           ("Content-Type", "application/json")]
  ∧ (Context.mk r m (some k) (some s)).me_getbalance ts =
      .ok ⟨"GET",
           (Context.mk r m (some k) (some s)).endpoint ++ "/v1/me/getbalance" ++ "?" ++ urlencode [],
           "",
           some [("ACCESS-KEY", k),
                 ("ACCESS-TIMESTAMP", ts),
                 ("ACCESS-SIGN", hexdigest (hmacSha256 s (strToBytes (ts ++ "GET" ++ "/v1/me/getbalance" ++ "")))),
                 ("Content-Type", "application/json")]⟩ :=
  ⟨rfl, rfl⟩

/-- C3: the timestamp string inside the signed message is the same string
placed in the `ACCESS-TIMESTAMP` header: both are the one `timestamp`
argument of `_create_header`, captured once. -/
theorem header_timestamp_byte_identical (r : Region) (m : Option Market)
    (k ts method path data : String) (s : Bytes) :
    ((Context.mk r m (some k) (some s))._create_header ts method path data).map
        (assocGet "ACCESS-TIMESTAMP") = .ok (some ts)
  ∧ ((Context.mk r m (some k) (some s))._create_header ts method path data).map
        (assocGet "ACCESS-SIGN")
      = .ok (some (hexdigest (hmacSha256 s (strToBytes (ts ++ method ++ path ++ data))))) :=
  ⟨rfl, rfl⟩

/-- C4 counterexample: with both `product_code` and `alias` supplied, the
board-snapshot operation does not fail at all — `gen_market_data` silently
prefers `product_code`, so the call succeeds (the query is then lost from
the URL by the C1 bug, but no `InvalidArgument`-like error is raised). -/
theorem both_market_args_no_error :
    Context.getboard ⟨.JP, none, none, none⟩ "1700000000.0"
        (some "BTC_JPY") (some "BTCJPY")
      = .ok ⟨"GET", "https://api.bitflyer.com/v1/getboard", "", none⟩ :=
  rfl

/-- C4 amended: when the caller supplies both `product_code` and `alias`,
market-parameter completion succeeds and uses `product_code`, ignoring the
alias; no error is signalled. -/
theorem both_market_args_prefer_product_code (m : Option Market)
    (r : Region) (k : Option String) (s : Option Bytes) (pc al : String) :
    gen_market_data m (some pc) (some al) = .ok [("product_code", .s pc)]
  ∧ (Context.mk r m k s).getboard_query (some pc) (some al)
      = .ok [("product_code", .s pc)] :=
  ⟨rfl, rfl⟩

/-- C5: a market-dependent operation on a context with no bound market and
no caller-supplied `product_code`/`alias` fails with the missing-market
error (the `AttributeError` from reading the unset `market` slot, the
spec's `MissingMarket`). -/
theorem no_market_fails (r : Region) (k : Option String) (s : Option Bytes)
    (ts : String) :
    gen_market_data none none none = .error .missingMarket
  ∧ (Context.mk r none k s).getboard ts none none = .error .missingMarket
  ∧ (Context.mk r none k s).getexecutions ts none none none none none
      = .error .missingMarket :=
  ⟨rfl, rfl, rfl⟩

/-- C6: with a bound market `m` and neither `product_code` nor `alias`
supplied, the completed query is exactly the one-entry dict
`product_code = m.product_code`. -/
theorem bound_market_completion (m : Market) (r : Region) (k : Option String)
    (s : Option Bytes) :
    gen_market_data (some m) none none = .ok [("product_code", .s m.product_code)]
  ∧ (Context.mk r (some m) k s).getboard_query none none
      = .ok [("product_code", .s m.product_code)] :=
  ⟨rfl, rfl⟩

/-- C7: a resolve on the unpopulated registry performs exactly one fetch and
stores the parsed listing; every resolve on a populated registry performs no
fetch and leaves the stored descriptors unchanged. -/
theorem registry_fetch_at_most_once (fetched d : List Market) (pc al : String)
    (pco alo : Option String) :
    ((Market.__new__ fetched none (some pc) none).fetches = 1
     ∧ (Market.__new__ fetched none (some pc) none).state
         = some (buildMarkets fetched))
  ∧ ((Market.__new__ fetched none none (some al)).fetches = 1
     ∧ (Market.__new__ fetched none none (some al)).state
         = some (buildMarkets fetched))
  ∧ ((Market.__new__ fetched (some d) pco alo).fetches = 0
     ∧ (Market.__new__ fetched (some d) pco alo).state = some d) := by
  refine ⟨⟨rfl, rfl⟩, ⟨rfl, rfl⟩, ?_⟩
  rcases pco with _ | x <;> rcases alo with _ | y <;> exact ⟨rfl, rfl⟩

/-- C8: over a populated registry, lookup by the `product_code` of any
fetched descriptor returns that exact descriptor, and lookup by an alias no
fetched descriptor carries fails with the `KeyError` whose message
enumerates all known non-null aliases. -/
theorem registry_roundtrip (parsed : List Market) (m : Market) (al : String)
    (hnd : (parsed.map (fun x => x.product_code)).Nodup)
    (hm : m ∈ parsed)
    (hal : ∀ x ∈ parsed, x.«alias» ≠ some al) :
    (Market.__new__ parsed (some (buildMarkets parsed))
        (some m.product_code) none).result = .ok m
  ∧ (Market.__new__ parsed (some (buildMarkets parsed)) none (some al)).result
      = .error (.keyError ("given: alias=" ++ pyRepr al) (availAliases parsed)) := by
  have hbm : buildMarkets parsed = parsed := pyDictOf_eq_self _ _ hnd
  constructor
  · show Market.lookupResult (buildMarkets parsed) (some m.product_code) none = .ok m
    rw [hbm]
    have h1 : List.find? (fun y => y.product_code == m.product_code) parsed = some m :=
      find?_key_of_mem (fun x => x.product_code) parsed m hnd hm
    simp [Market.lookupResult, pyDictGet, h1]
  · show Market.lookupResult (buildMarkets parsed) none (some al) = .error _
    rw [hbm]
    have hfa : parsed.find? (fun x => x.«alias» == some al) = none := by
      rw [List.find?_eq_none]
      intro x hx
      simpa using hal x hx
    simp [Market.lookupResult, hfa]

/-- C8 witness: the round-trip theorem applied to a concrete three-market
listing and the alias string `"ZZZ"` carried by none of them. -/
theorem registry_roundtrip_witness :
    ((wMarkets.map (fun x => x.product_code)).Nodup
     ∧ wMarket ∈ wMarkets
     ∧ (∀ x ∈ wMarkets, x.«alias» ≠ some "ZZZ"))
  ∧ ((Market.__new__ wMarkets (some (buildMarkets wMarkets))
        (some wMarket.product_code) none).result = .ok wMarket
     ∧ (Market.__new__ wMarkets (some (buildMarkets wMarkets)) none
          (some "ZZZ")).result
        = .error (.keyError ("given: alias=" ++ pyRepr "ZZZ")
            (availAliases wMarkets))) :=
  ⟨⟨by decide, by decide, by decide⟩,
   registry_roundtrip wMarkets wMarket "ZZZ" (by decide) (by decide) (by decide)⟩

/-- C9: the region-wise path operation returns `base_path` unchanged for
region `JP` and `base_path ++ "/" ++ lowercased region code` for `USA` and
`EU`; it is total on all inputs. -/
theorem regionwise_path_spec (p : String) (m : Option Market)
    (k : Option String) (s : Option Bytes) :
    (Context.mk .JP m k s)._get_regionwise_path p = p
  ∧ (Context.mk .USA m k s)._get_regionwise_path p = p ++ "/" ++ Region.pylower .USA
  ∧ (Context.mk .EU m k s)._get_regionwise_path p = p ++ "/" ++ Region.pylower .EU
  ∧ Region.pylower .USA = "usa" ∧ Region.pylower .EU = "eu" :=
  ⟨rfl, rfl, rfl, rfl, rfl⟩

/-- C10: for every combination of optional `count`/`before`/`after`, the
pagination pairs contain each key exactly when its argument is supplied,
with the supplied value, and nothing else; and each paginated operation's
query is exactly those pairs (after `product_code` for `getexecutions`). -/
theorem pagenation_query_exact (c b a : Option Int) (r : Region) (m : Market)
    (k : Option String) (s : Option Bytes) :
    queryGet (gen_pagenation c b a) "count" = c.map QVal.i
  ∧ queryGet (gen_pagenation c b a) "before" = b.map QVal.i
  ∧ queryGet (gen_pagenation c b a) "after" = a.map QVal.i
  ∧ ((gen_pagenation c b a).all
      (fun kv => kv.1 == "count" || kv.1 == "before" || kv.1 == "after") = true)
  ∧ Context.me_getcoinins_query c b a = gen_pagenation c b a
  ∧ Context.me_getcoinouts_query c b a = gen_pagenation c b a
  ∧ Context.me_getdeposits_query c b a = gen_pagenation c b a
  ∧ Context.me_getwithdrawals_query c b a none = gen_pagenation c b a
  ∧ (Context.mk r (some m) k s).getexecutions_query none none c b a
      = .ok (("product_code", QVal.s m.product_code) :: gen_pagenation c b a) := by
  rcases c with _ | c <;> rcases b with _ | b <;> rcases a with _ | a <;>
    exact ⟨rfl, rfl, rfl, rfl, rfl, rfl, rfl, rfl, rfl⟩

end PyBitflyer
